import Mathlib

/-!
# Verification of the role-gated access and integration-configuration logic

Shallow embedding of the authorization route guard
(`frontend/src/components/ProtectedRoute.tsx`), the pending-admin-request
notice (`frontend/src/pages/Profile.tsx`) and the Integrations page's
client-local configuration store (the `Integrations` component: catalog,
`loadIntegrations`, `handleToggle`, `handleSaveConfig`, and the persistence
effect writing to `localStorage`).
-/

namespace FeedbackApp

/-- Roles are plain strings in the source (`user.role: string`). -/
abbrev Role := String

/-- The authenticated principal, after the `User` interface used by the
frontend (id, username, email, full_name, role, requested_role,
role_approved, is_active, created_at) together with the optional
`is_super_admin` capability flag read in the admin view. -/
structure AuthUser where
  id : String
  username : String
  email : String
  full_name : Option String
  role : Role
  requested_role : Option Role
  role_approved : Bool
  is_active : Bool
  created_at : String
  is_super_admin : Bool
deriving DecidableEq

/-- Outcome of rendering `ProtectedRoute`: either a `<Navigate to=... replace />`
redirect or the protected children. -/
inductive RouteOutcome where
  | navigate (dest : String) (replace : Bool)
  | renderChildren
deriving DecidableEq

/-- `ProtectedRoute` from `frontend/src/components/ProtectedRoute.tsx`:
no user redirects to `"/login"`; a user whose `role` is not in
`allowedRoles` redirects to `"/"` (the default authenticated landing
route, the Dashboard); otherwise the children render. -/
def ProtectedRoute (user : Option AuthUser) (allowedRoles : List Role) :
    RouteOutcome :=
  match user with
  | none => .navigate "/login" true
  | some u =>
      if !(allowedRoles.contains u.role) then .navigate "/" true
      else .renderChildren

/-- The role the route guard consults is always `user.role`
(`allowedRoles.includes(user.role)` in `ProtectedRoute.tsx`); a pending
`requested_role` is never read there. -/
def effectiveRole (u : AuthUser) : Role := u.role

/-- `hasPendingAdminRequest` from `frontend/src/pages/Profile.tsx`:
`user?.requested_role === "admin" && !user?.role_approved`. -/
def hasPendingAdminRequest (user : Option AuthUser) : Bool :=
  (match user with
   | some u => u.requested_role == some "admin"
   | none => false) &&
  !(match user with
    | some u => u.role_approved
    | none => false)

/-- Modelled from the spec: the backend that assigns `role` on
registration and on role approval is not part of the inspected source;
per the spec, a principal with `requestedRole = admin` and
`roleApproved = false` still carries `role = "viewer"` until an
administrator approves the request. -/
def pendingRoleInvariant (u : AuthUser) : Prop :=
  u.requested_role = some "admin" → u.role_approved = false →
    u.role = "viewer"

/-! ## Integration Config Store (the `Integrations` component) -/

/-- Icon components assigned to the catalog entries (from
`@mui/icons-material`); non-serializable presentation data. -/
inductive Icon where
  | Chat
  | Email
  | Webhook
  | IntegrationInstructions
deriving DecidableEq

/-- `status: "connected" | "disconnected" | "error"`. -/
inductive Status where
  | connected
  | disconnected
  | error
deriving DecidableEq

/-- An integration's free-form `config` object: string keys to string
values, in insertion order (the shapes used by the dialog are flat
string-valued objects). -/
abbrev Config := List (String × String)

/-- The `Integration` interface of the Integrations component. -/
structure Integration where
  id : String
  name : String
  description : String
  icon : Icon
  enabled : Bool
  status : Status
  config : Option Config
deriving DecidableEq

/-- A record as persisted to `localStorage`: every `Integration` field
except the `icon` component (`integrations.map(({ icon, ...rest }) => rest)`);
a missing `config` stays missing (`JSON.stringify` drops nothing else). -/
structure SavedRecord where
  id : String
  name : String
  description : String
  enabled : Bool
  status : Status
  config : Option Config
deriving DecidableEq

/-- `({ icon, ...rest }) => rest`: strip the icon from an integration. -/
def dropIcon (i : Integration) : SavedRecord :=
  { id := i.id, name := i.name, description := i.description,
    enabled := i.enabled, status := i.status, config := i.config }

/-- `dataToSave` in the persistence effect: the array written to
storage on every state change. -/
def dataToSave (integrations : List Integration) : List SavedRecord :=
  integrations.map dropIcon

/-- The single durable-storage key used by both the persistence effect
and `loadIntegrations`. -/
def storageKey : String := "integrations_config"

/-- `defaultIntegrations`: the static descriptor catalog defined in the
component. -/
def defaultIntegrations : List Integration :=
  [ { id := "slack", name := "Slack",
      description := "Get feedback notifications in Slack channels",
      icon := .Chat, enabled := false, status := .disconnected,
      config := none },
    { id := "teams", name := "Microsoft Teams",
      description := "Send feedback alerts to Teams channels",
      icon := .Chat, enabled := false, status := .disconnected,
      config := none },
    { id := "email", name := "Email Notifications",
      description := "Receive email alerts for critical feedback",
      icon := .Email, enabled := true, status := .connected,
      config := some [("email", "team@example.com")] },
    { id := "webhook", name := "Custom Webhook",
      description := "Send feedback to your custom endpoint",
      icon := .Webhook, enabled := false, status := .disconnected,
      config := none },
    { id := "zapier", name := "Zapier",
      description := "Connect to 5000+ apps via Zapier",
      icon := .IntegrationInstructions, enabled := false,
      status := .disconnected, config := none } ]

/-- What `localStorage.getItem("integrations_config")` can hold: either a
payload `JSON.parse` rejects, or a well-formed array of records. -/
inductive RawPayload where
  | malformed
  | wellFormed (records : List SavedRecord)
deriving DecidableEq

/-- `JSON.parse` on the stored payload: throws (`Except.error`) on a
malformed payload, otherwise yields the record array. -/
def jsonParse : RawPayload → Except String (List SavedRecord)
  | .malformed => .error "Unexpected token"
  | .wellFormed rs => .ok rs

/-- The merge `{ ...def, ...saved, icon: def.icon }`: every field present
on the saved record wins (`id`, `name`, `description`, `enabled`,
`status`, and `config` when the saved record has one), then the icon is
put back from the descriptor. A saved record without a `config` key
leaves the descriptor's `config` in place. -/
def mergeSaved (d : Integration) (saved : SavedRecord) : Integration :=
  { id := saved.id, name := saved.name, description := saved.description,
    icon := d.icon, enabled := saved.enabled, status := saved.status,
    config := match saved.config with
              | some c => some c
              | none => d.config }

/-- The body of the `defaultIntegrations.map` callback in
`loadIntegrations`: find the persisted record with the descriptor's id
and merge it, or keep the descriptor. -/
def loadOne (rs : List SavedRecord) (d : Integration) : Integration :=
  match rs.find? (fun r => r.id == d.id) with
  | some saved => mergeSaved d saved
  | none => d

/-- `loadIntegrations`: `none` models an absent storage entry; a parse
failure is caught (`try`/`catch`) and falls back to the defaults;
otherwise each catalog descriptor is merged with its persisted record. -/
def loadIntegrations (storage : Option RawPayload) : List Integration :=
  match storage with
  | none => defaultIntegrations
  | some payload =>
      match jsonParse payload with
      | .error _ => defaultIntegrations
      | .ok rs => defaultIntegrations.map (loadOne rs)

/-- `canModify`: `user?.role === "admin" || user?.role === "analyst"`. -/
def canModify (user : Option AuthUser) : Bool :=
  (match user with
   | some u => u.role == "admin"
   | none => false) ||
  (match user with
   | some u => u.role == "analyst"
   | none => false)

/-- The enable/disable `Switch` carries `disabled={!canModify}`; so does
the Configure button. This is the only role gating on the page. -/
def switchDisabled (user : Option AuthUser) : Bool :=
  !(canModify user)

/-- `handleToggle`: flips `enabled` on the matching integration. The
`user` parameter is the component-scope variable the handler closes
over; its body never reads it. -/
def handleToggle (user : Option AuthUser) (integrationId : String)
    (prev : List Integration) : List Integration :=
  prev.map (fun integration =>
    if integration.id == integrationId then
      { integration with enabled := !integration.enabled }
    else integration)

/-- `handleSaveConfig`: on the integration whose id matches the selected
one, sets `config` to the dialog's values, `status` to `"connected"` and
`enabled` to `true`. The `user` parameter is the component-scope
variable in the handler's closure; its body never reads it. -/
def handleSaveConfig (user : Option AuthUser) (selectedId : String)
    (configValues : Config) (prev : List Integration) : List Integration :=
  prev.map (fun integration =>
    if integration.id == selectedId then
      { integration with config := some configValues,
                         status := .connected, enabled := true }
    else integration)

/-- A principal with an approved admin role. -/
def uAdmin : AuthUser :=
  { id := "u-admin", username := "alice", email := "alice@example.com",
    full_name := some "Alice A", role := "admin", requested_role := none,
    role_approved := true, is_active := true,
    created_at := "2024-01-01T00:00:00Z", is_super_admin := false }

/-- A principal with the analyst role. -/
def uAnalyst : AuthUser :=
  { id := "u-analyst", username := "bob", email := "bob@example.com",
    full_name := none, role := "analyst", requested_role := none,
    role_approved := true, is_active := true,
    created_at := "2024-01-02T00:00:00Z", is_super_admin := false }

/-- A plain viewer. -/
def uViewer : AuthUser :=
  { id := "u-viewer", username := "carol", email := "carol@example.com",
    full_name := none, role := "viewer", requested_role := none,
    role_approved := false, is_active := true,
    created_at := "2024-01-03T00:00:00Z", is_super_admin := false }

/-- A viewer with a pending, unapproved admin role request. -/
def uPendingAdmin : AuthUser :=
  { id := "u-pending", username := "dave", email := "dave@example.com",
    full_name := none, role := "viewer", requested_role := some "admin",
    role_approved := false, is_active := true,
    created_at := "2024-01-04T00:00:00Z", is_super_admin := false }

/-- A hand-edited persisted record whose display name differs from the
catalog's display name for the same id. -/
def hackedSlackRecord : SavedRecord :=
  { id := "slack", name := "Hacked", description := "tampered",
    enabled := true, status := .connected, config := none }

/-- JSON values, to model what `JSON.stringify` writes to storage. -/
inductive Json where
  | str (s : String)
  | boolean (b : Bool)
  | obj (fields : List (String × Json))
  | arr (elems : List Json)

/-- The serialized form of a `status` value. -/
def statusString : Status → String
  | .connected => "connected"
  | .disconnected => "disconnected"
  | .error => "error"

/-- A config object serializes to a JSON object of string values. -/
def jsonOfConfig (c : Config) : Json :=
  .obj (c.map fun p => (p.1, .str p.2))

/-- `JSON.stringify` of one element of `dataToSave`: the keys follow the
`Integration` interface order with `icon` stripped, and the `config` key
is present exactly when the record carries one. -/
def jsonOfSavedRecord (r : SavedRecord) : Json :=
  .obj ([("id", .str r.id), ("name", .str r.name),
         ("description", .str r.description),
         ("enabled", .boolean r.enabled),
         ("status", .str (statusString r.status))] ++
        (match r.config with
         | some c => [("config", jsonOfConfig c)]
         | none => []))

/-- The whole payload written under `storageKey` on every persist:
`JSON.stringify(dataToSave)`, an array of record objects. -/
def persistPayload (integrations : List Integration) : Json :=
  .arr ((dataToSave integrations).map jsonOfSavedRecord)

/-- The keys of a JSON object (empty for non-objects). -/
def objKeys : Json → List String
  | .obj fields => fields.map Prod.fst
  | _ => []

end FeedbackApp

namespace FeedbackApp

/-! ## General lemmas -/

/-- Mapping `f` over a list relates each element to its image. -/
theorem forall2_map_self {α β : Type} {P : α → β → Prop} (f : α → β) :
    ∀ l : List α, (∀ a ∈ l, P a (f a)) → List.Forall₂ P l (l.map f)
  | [], _ => List.Forall₂.nil
  | x :: t, h =>
      List.Forall₂.cons (h x (List.mem_cons_self x t))
        (forall2_map_self f t fun a ha => h a (List.mem_cons_of_mem x ha))

/-- Post-composing a map with `g` forgets an inner map that `g` cannot
observe. -/
theorem map_map_eq_map_of {α β : Type} (f : α → α) (g : α → β)
    (h : ∀ a, g (f a) = g a) (l : List α) : (l.map f).map g = l.map g := by
  rw [List.map_map]
  exact List.map_congr_left fun a _ => h a

/-- A self-inverse elementwise operation cancels across `map`. -/
theorem map_self_inverse {α : Type} (f : α → α) (h : ∀ a, f (f a) = a) :
    ∀ l : List α, (l.map f).map f = l := by
  intro l
  rw [List.map_map]
  have : l.map (f ∘ f) = l.map id := List.map_congr_left fun a _ => h a
  simpa using this

/-- Merging never changes the id selected from the catalog. -/
theorem loadOne_id (rs : List SavedRecord) (d : Integration) :
    (loadOne rs d).id = d.id := by
  unfold loadOne
  cases hf : rs.find? (fun r => r.id == d.id) with
  | none => rfl
  | some saved =>
      have := List.find?_some hf
      exact beq_iff_eq.mp this

/-- A saved record with a different id does not affect the merge for a
descriptor. -/
theorem loadOne_cons_ne (r : SavedRecord) (rs : List SavedRecord)
    (d : Integration) (h : (r.id == d.id) = false) :
    loadOne (r :: rs) d = loadOne rs d := by
  unfold loadOne
  rw [List.find?_cons, h]

/-! ## Claim theorems -/

/-- C1: a principal whose `requested_role` is `"admin"` and whose
`role_approved` is `false` is treated as a viewer by authorization: the
effective role the route guard consults is `"viewer"` (given the
spec-modelled backend invariant that a pending request leaves
`role = "viewer"`), every rule that does not allow `"viewer"` denies
access (redirect to the landing route), and the pending `requested_role`
never participates in the decision — any principal with the same `role`
gets the same outcome on every rule. The pending request only surfaces
as the informational `hasPendingAdminRequest` notice. -/
theorem pending_admin_is_viewer (u : AuthUser)
    (hreq : u.requested_role = some "admin")
    (happ : u.role_approved = false)
    (hinv : pendingRoleInvariant u) :
    effectiveRole u = "viewer" ∧
    hasPendingAdminRequest (some u) = true ∧
    (∀ allowedRoles : List Role, "viewer" ∉ allowedRoles →
        ProtectedRoute (some u) allowedRoles = .navigate "/" true) ∧
    (∀ (v : AuthUser) (allowedRoles : List Role), v.role = u.role →
        ProtectedRoute (some v) allowedRoles
          = ProtectedRoute (some u) allowedRoles) := by
  have hrole : u.role = "viewer" := hinv hreq happ
  refine ⟨hrole, ?_, ?_, ?_⟩
  · simp [hasPendingAdminRequest, hreq, happ]
  · intro allowedRoles hmem
    simp only [ProtectedRoute]
    have hc : allowedRoles.contains u.role = false := by
      rw [hrole]; simpa using hmem
    rw [hc]; rfl
  · intro v allowedRoles hv
    simp [ProtectedRoute, hv]

/-- Witness for C1 at a concrete pending-admin principal. -/
theorem pending_admin_is_viewer_witness :
    effectiveRole uPendingAdmin = "viewer" ∧
    hasPendingAdminRequest (some uPendingAdmin) = true ∧
    ProtectedRoute (some uPendingAdmin) ["admin"]
      = RouteOutcome.navigate "/" true := by
  have h := pending_admin_is_viewer uPendingAdmin rfl rfl (fun _ _ => rfl)
  exact ⟨h.1, h.2.1, h.2.2.1 ["admin"] (by decide)⟩

/-- C4: `ProtectedRoute` implements the two-tier redirect: with no
principal it navigates to `"/login"`; with a principal whose role is not
in the rule's allowed roles it navigates to `"/"` (the default
authenticated landing route); with an allowed role it renders the
requested view. -/
theorem protected_route_two_tier (allowedRoles : List Role) :
    ProtectedRoute none allowedRoles = .navigate "/login" true ∧
    (∀ u : AuthUser, u.role ∉ allowedRoles →
        ProtectedRoute (some u) allowedRoles = .navigate "/" true) ∧
    (∀ u : AuthUser, u.role ∈ allowedRoles →
        ProtectedRoute (some u) allowedRoles = .renderChildren) := by
  refine ⟨rfl, ?_, ?_⟩
  · intro u h
    simp only [ProtectedRoute]
    have hc : allowedRoles.contains u.role = false := by simpa using h
    rw [hc]; rfl
  · intro u h
    simp only [ProtectedRoute]
    have hc : allowedRoles.contains u.role = true := by simpa using h
    rw [hc]; rfl

/-- Witness for C4 on the integrations route rule
(`allowedRoles = ["admin", "analyst"]`): unauthenticated → login, a
viewer → landing route, an analyst → render. -/
theorem protected_route_two_tier_witness :
    ProtectedRoute none ["admin", "analyst"]
      = RouteOutcome.navigate "/login" true ∧
    ProtectedRoute (some uViewer) ["admin", "analyst"]
      = RouteOutcome.navigate "/" true ∧
    ProtectedRoute (some uAnalyst) ["admin", "analyst"]
      = RouteOutcome.renderChildren := by
  have h := protected_route_two_tier ["admin", "analyst"]
  exact ⟨h.1, h.2.1 uViewer (by decide), h.2.2 uAnalyst (by decide)⟩

/-- C9: with no persisted entry, and likewise with a malformed persisted
payload, `loadIntegrations` returns exactly the descriptor defaults —
the full catalog, no missing or extra ids — and, being total, raises
nothing to the caller. -/
theorem load_defaults_when_absent_or_malformed :
    loadIntegrations none = defaultIntegrations ∧
    loadIntegrations (some .malformed) = defaultIntegrations ∧
    (loadIntegrations none).map Integration.id
      = ["slack", "teams", "email", "webhook", "zapier"] ∧
    (loadIntegrations (some .malformed)).map Integration.id
      = defaultIntegrations.map Integration.id := by
  exact ⟨rfl, rfl, by decide, rfl⟩

/-- C2 counterexample: `toggle` on an id absent from the state set does
not fail — there is no error channel at all in `handleToggle` — it
returns the state with every record unchanged. -/
theorem toggle_unknown_id_counterexample :
    handleToggle none "nonexistent-id" defaultIntegrations
      = defaultIntegrations := by decide

/-- C2 amended: for every id not present in the current state set,
`handleToggle` is a silent no-op — it leaves every existing integration
record unchanged and signals no error to the caller. -/
theorem toggle_unknown_id_noop (user : Option AuthUser) (id : String)
    (s : List Integration) (h : ∀ i ∈ s, i.id ≠ id) :
    handleToggle user id s = s := by
  induction s with
  | nil => rfl
  | cons i t ih =>
      have hne : i.id ≠ id := h i (List.mem_cons_self i t)
      have ht : handleToggle user id t = t :=
        ih fun j hj => h j (List.mem_cons_of_mem i hj)
      simpa [handleToggle, hne] using ht

/-- Witness for C2's amended statement at a concrete unknown id. -/
theorem toggle_unknown_id_noop_witness :
    handleToggle none "jira" defaultIntegrations = defaultIntegrations :=
  toggle_unknown_id_noop none "jira" defaultIntegrations (by decide)

/-- C3 counterexample: the display name does NOT always come from the
descriptor — a persisted record named `"Hacked"` under the `"slack"` id
makes `loadIntegrations` surface `"Hacked"`, while the catalog's display
name for that id is `"Slack"`. Only the icon is restored from the
descriptor. -/
theorem load_name_from_storage_counterexample :
    (loadIntegrations (some (.wellFormed [hackedSlackRecord]))).map
        Integration.name
      = ["Hacked", "Microsoft Teams", "Email Notifications",
         "Custom Webhook", "Zapier"] ∧
    defaultIntegrations.map Integration.name
      = ["Slack", "Microsoft Teams", "Email Notifications",
         "Custom Webhook", "Zapier"] ∧
    (loadIntegrations (some (.wellFormed [hackedSlackRecord]))).map
        Integration.icon
      = defaultIntegrations.map Integration.icon := by
  refine ⟨by decide, by decide, by decide⟩

/-- C3 amended: `loadIntegrations` on a well-formed persisted record set
produces exactly one state per catalog descriptor (persisted records
with unknown ids are silently dropped); where a persisted record
matches, its fields — including the display name — win over the
descriptor defaults, except that the icon always comes from the
descriptor and a record without a `config` keeps the descriptor's
default config; where none matches, the descriptor defaults are
materialized. -/
theorem load_merge_characterization (rs : List SavedRecord) :
    (loadIntegrations (some (.wellFormed rs))).map Integration.id
      = defaultIntegrations.map Integration.id ∧
    List.Forall₂ (fun d i =>
        i.icon = d.icon ∧
        (∀ r, rs.find? (fun r2 => r2.id == d.id) = some r →
            i.id = d.id ∧ i.name = r.name ∧ i.description = r.description ∧
            i.enabled = r.enabled ∧ i.status = r.status ∧
            i.config = (match r.config with
                        | some c => some c
                        | none => d.config)) ∧
        (rs.find? (fun r2 => r2.id == d.id) = none → i = d))
      defaultIntegrations (loadIntegrations (some (.wellFormed rs))) := by
  have hload : loadIntegrations (some (.wellFormed rs))
      = defaultIntegrations.map (loadOne rs) := rfl
  constructor
  · rw [hload, List.map_map]
    exact List.map_congr_left fun d _ => loadOne_id rs d
  · rw [hload]
    apply forall2_map_self
    intro d _
    unfold loadOne
    cases hf : rs.find? (fun r2 => r2.id == d.id) with
    | none =>
        refine ⟨rfl, ?_, fun _ => rfl⟩
        intro r hr
        exact Option.noConfusion hr
    | some saved =>
        refine ⟨rfl, ?_, fun hn => Option.noConfusion hn⟩
        intro r hr
        cases hr
        have h2 := List.find?_some hf
        have hid : saved.id = d.id := by simpa using h2
        exact ⟨hid, rfl, rfl, rfl, rfl, rfl⟩

/-- Witness for C3's amended statement at the tampered single-record
store: ids follow the catalog and the merged head keeps the stored
name. -/
theorem load_merge_characterization_witness :
    (loadIntegrations (some (.wellFormed [hackedSlackRecord]))).map
        Integration.id
      = defaultIntegrations.map Integration.id := by
  exact (load_merge_characterization [hackedSlackRecord]).1

/-- C6 counterexample: every record persisted by `dataToSave` carries the
`name` (and `description`) keys, so the stored schema is not
"exactly `{id, enabled, status, config}`" — and `config` is absent on
records that have none. -/
theorem persisted_fields_counterexample :
    (dataToSave defaultIntegrations).map
        (fun r => objKeys (jsonOfSavedRecord r))
      = [["id", "name", "description", "enabled", "status"],
         ["id", "name", "description", "enabled", "status"],
         ["id", "name", "description", "enabled", "status", "config"],
         ["id", "name", "description", "enabled", "status"],
         ["id", "name", "description", "enabled", "status"]] ∧
    "name" ∉ (["id", "enabled", "status", "config"] : List String) := by
  refine ⟨by decide, by decide⟩

/-- C6 amended: every persist writes to the single durable-storage entry
`"integrations_config"` the array `JSON.stringify(dataToSave)`, whose
record objects carry exactly the keys `id`, `name`, `description`,
`enabled`, `status`, plus `config` exactly when the record has one; the
non-serializable `icon` is excluded and there is no version key. -/
theorem persist_schema (r : SavedRecord) :
    storageKey = "integrations_config" ∧
    "id" ∈ objKeys (jsonOfSavedRecord r) ∧
    "name" ∈ objKeys (jsonOfSavedRecord r) ∧
    "description" ∈ objKeys (jsonOfSavedRecord r) ∧
    "enabled" ∈ objKeys (jsonOfSavedRecord r) ∧
    "status" ∈ objKeys (jsonOfSavedRecord r) ∧
    ("config" ∈ objKeys (jsonOfSavedRecord r) ↔ r.config.isSome = true) ∧
    "icon" ∉ objKeys (jsonOfSavedRecord r) ∧
    "version" ∉ objKeys (jsonOfSavedRecord r) := by
  cases hc : r.config with
  | none => simp [jsonOfSavedRecord, objKeys, hc, storageKey]
  | some c => simp [jsonOfSavedRecord, objKeys, hc, storageKey]

/-- Witness for C6's amended statement on a concrete persisted record
(the email entry's persisted form, which carries a config). -/
theorem persist_schema_witness :
    "name" ∈ objKeys (jsonOfSavedRecord
        { id := "email", name := "Email Notifications",
          description := "Receive email alerts for critical feedback",
          enabled := true, status := .connected,
          config := some [("email", "team@example.com")] }) ∧
    ("config" ∈ objKeys (jsonOfSavedRecord
        { id := "email", name := "Email Notifications",
          description := "Receive email alerts for critical feedback",
          enabled := true, status := .connected,
          config := some [("email", "team@example.com")] }) ↔
      (some [("email", "team@example.com")] : Option Config).isSome
        = true) := by
  have h := persist_schema
    { id := "email", name := "Email Notifications",
      description := "Receive email alerts for critical feedback",
      enabled := true, status := .connected,
      config := some [("email", "team@example.com")] }
  exact ⟨h.2.2.1, h.2.2.2.2.2.2.1⟩

/-- C7: `handleSaveConfig` gives the targeted integration exactly
`config = configValues`, `status = connected`, `enabled = true`, leaves
every other integration untouched (and never changes ids, names,
descriptions or icons); the identical call repeated is idempotent; and
`handleToggle` — the only other mutation — never changes any `status`,
so configuring is the only mutation that can move a status to
`connected`. -/
theorem configure_connects (user : Option AuthUser) (id : String)
    (cfg : Config) (s : List Integration) :
    List.Forall₂ (fun i j =>
        j.id = i.id ∧ j.name = i.name ∧ j.description = i.description ∧
        j.icon = i.icon ∧
        (i.id = id → j.config = some cfg ∧ j.status = .connected ∧
            j.enabled = true) ∧
        (i.id ≠ id → j = i))
      s (handleSaveConfig user id cfg s) ∧
    handleSaveConfig user id cfg (handleSaveConfig user id cfg s)
      = handleSaveConfig user id cfg s ∧
    (∀ (u2 : Option AuthUser) (tid : String),
        (handleToggle u2 tid s).map Integration.status
          = s.map Integration.status) := by
  refine ⟨?_, ?_, ?_⟩
  · simp only [handleSaveConfig]
    apply forall2_map_self
    intro i _
    by_cases hid : i.id = id
    · simp [hid]
    · simp [hid]
  · simp only [handleSaveConfig]
    apply map_map_eq_map_of
    intro i
    by_cases hid : i.id = id
    · simp [hid]
    · simp [hid]
  · intro u2 tid
    simp only [handleToggle]
    apply map_map_eq_map_of
    intro i
    by_cases hid : i.id = tid
    · simp [hid]
    · simp [hid]

/-- Witness for C7 at the concrete `slack` configure call from the
spec's example. -/
theorem configure_connects_witness :
    handleSaveConfig none "slack" [("webhookUrl", "https://x")]
        (handleSaveConfig none "slack" [("webhookUrl", "https://x")]
          defaultIntegrations)
      = handleSaveConfig none "slack" [("webhookUrl", "https://x")]
          defaultIntegrations ∧
    (handleToggle none "email" defaultIntegrations).map Integration.status
      = defaultIntegrations.map Integration.status := by
  have h := configure_connects none "slack" [("webhookUrl", "https://x")]
    defaultIntegrations
  exact ⟨h.2.1, h.2.2 none "email"⟩

/-- C8: toggling an id present in the state negates exactly that
integration's `enabled` flag, leaves every `status` and `config` (and
id, name, description, icon) unchanged, and toggling the same id twice
restores the original state. -/
theorem toggle_flips_enabled (user : Option AuthUser) (id : String)
    (s : List Integration) (hpresent : ∃ i ∈ s, i.id = id) :
    List.Forall₂ (fun i j =>
        j.id = i.id ∧ j.name = i.name ∧ j.description = i.description ∧
        j.icon = i.icon ∧ j.status = i.status ∧ j.config = i.config ∧
        j.enabled = (if i.id = id then !i.enabled else i.enabled))
      s (handleToggle user id s) ∧
    handleToggle user id (handleToggle user id s) = s := by
  constructor
  · simp only [handleToggle]
    apply forall2_map_self
    intro i _
    by_cases hid : i.id = id
    · simp [hid]
    · simp [hid]
  · simp only [handleToggle]
    apply map_self_inverse
    intro i
    by_cases hid : i.id = id
    · simp [hid, Bool.not_not]
      rw [← hid]
    · simp [hid]

/-- Witness for C8 at the spec's example: double-toggling `"email"` on
the default catalog restores it. -/
theorem toggle_flips_enabled_witness :
    handleToggle none "email" (handleToggle none "email" defaultIntegrations)
      = defaultIntegrations :=
  (toggle_flips_enabled none "email" defaultIntegrations (by decide)).2

/-- C10: the store's mutations perform no role check — for any two
principals (of any roles, or none) the result of `handleToggle` or
`handleSaveConfig` on the same prior state is identical; role gating
exists only as the UI affordance (`canModify` / the disabled controls),
which admits exactly the admin and analyst roles, plus the route guard
(`ProtectedRoute`, see the two-tier theorem). -/
theorem mutations_ignore_role :
    (∀ (u1 u2 : Option AuthUser) (id : String) (s : List Integration),
        handleToggle u1 id s = handleToggle u2 id s) ∧
    (∀ (u1 u2 : Option AuthUser) (id : String) (cfg : Config)
        (s : List Integration),
        handleSaveConfig u1 id cfg s = handleSaveConfig u2 id cfg s) ∧
    (∀ u : AuthUser, (u.role = "admin" ∨ u.role = "analyst") →
        canModify (some u) = true ∧ switchDisabled (some u) = false) ∧
    (∀ u : AuthUser, u.role = "viewer" →
        canModify (some u) = false ∧ switchDisabled (some u) = true) ∧
    canModify none = false := by
  refine ⟨fun _ _ _ _ => rfl, fun _ _ _ _ _ => rfl, ?_, ?_, rfl⟩
  · intro u h
    rcases h with h | h <;> simp [canModify, switchDisabled, h]
  · intro u h
    simp [canModify, switchDisabled, h]

/-- Witness for C10: an admin and a viewer produce identical toggle
results on the default state, while the UI affordance differs. -/
theorem mutations_ignore_role_witness :
    handleToggle (some uAdmin) "slack" defaultIntegrations
      = handleToggle (some uViewer) "slack" defaultIntegrations ∧
    canModify (some uAdmin) = true ∧
    switchDisabled (some uViewer) = true := by
  have h := mutations_ignore_role
  exact ⟨h.1 (some uAdmin) (some uViewer) "slack" defaultIntegrations,
         (h.2.2.1 uAdmin (Or.inl rfl)).1, (h.2.2.2.1 uViewer rfl).2⟩

/-- Persisting drops only the icon, so merging a record back over its
own descriptor restores the integration, provided the integration's
icon was the descriptor's and a missing config implies the descriptor
also has none. -/
theorem mergeSaved_dropIcon (d i : Integration) (hicon : i.icon = d.icon)
    (hcfg : i.config = none → d.config = none) :
    mergeSaved d (dropIcon i) = i := by
  obtain ⟨iid, inm, ids2, iic, ien, ist, icf⟩ := i
  cases icf with
  | some c => simp_all [mergeSaved, dropIcon]
  | none =>
      have hd : d.config = none := hcfg rfl
      simp_all [mergeSaved, dropIcon]

/-- Loading the persisted form of a state aligned with a duplicate-free
catalog reproduces the state. -/
theorem load_aligned :
    ∀ (ds s : List Integration),
      List.Forall₂ (fun d i => i.id = d.id ∧ i.icon = d.icon ∧
          (i.config = none → d.config = none)) ds s →
      (ds.map Integration.id).Nodup →
      ds.map (loadOne (dataToSave s)) = s := by
  intro ds s h
  induction h with
  | nil => intro _; rfl
  | @cons d i dt it hdi htail ih =>
      intro hnodup
      rw [List.map_cons] at hnodup
      obtain ⟨hnotmem, htlnodup⟩ := List.nodup_cons.mp hnodup
      have hb : ((dropIcon i).id == d.id) = true := by
        simp [dropIcon, hdi.1]
      have hfind : (dropIcon i :: dataToSave it).find?
          (fun r => r.id == d.id) = some (dropIcon i) := by
        simp [List.find?_cons, hb]
      have hhead : loadOne (dataToSave (i :: it)) d = i := by
        show loadOne (dropIcon i :: dataToSave it) d = i
        unfold loadOne
        rw [hfind]
        exact mergeSaved_dropIcon d i hdi.2.1 hdi.2.2
      have htl : dt.map (loadOne (dataToSave (i :: it)))
          = dt.map (loadOne (dataToSave it)) := by
        apply List.map_congr_left
        intro d2 hd2
        have hne2 : ((dropIcon i).id == d2.id) = false := by
          have h1 : i.id = d.id := hdi.1
          have h2 : d.id ≠ d2.id := by
            intro he
            apply hnotmem
            rw [he]
            exact List.mem_map_of_mem Integration.id hd2
          simp [dropIcon, h1, h2]
        show loadOne (dropIcon i :: dataToSave it) d2
            = loadOne (dataToSave it) d2
        exact loadOne_cons_ne _ _ _ hne2
      rw [List.map_cons, hhead, htl, ih htlnodup]

/-- C5 counterexample: a state whose ids are a strict subset of the
catalog (here just the `teams` record) does not round-trip — loading
rematerializes the four missing descriptors, so the result is not the
original one-element state. -/
theorem persist_load_counterexample :
    loadIntegrations (some (.wellFormed (dataToSave
        [{ id := "teams", name := "Microsoft Teams",
           description := "Send feedback alerts to Teams channels",
           icon := .Chat, enabled := false, status := .disconnected,
           config := none }])))
      ≠ [{ id := "teams", name := "Microsoft Teams",
           description := "Send feedback alerts to Teams channels",
           icon := .Chat, enabled := false, status := .disconnected,
           config := none }] := by decide

/-- C5 amended: persist followed by load is the identity exactly on
states carrying one record per catalog descriptor in catalog order,
whose icons match their descriptors' icons, and which have a `config`
wherever the descriptor's defaults do (ids that are a strict subset of
the catalog are rematerialized to the full catalog instead). -/
theorem persist_load_round_trip (s : List Integration)
    (h : List.Forall₂ (fun d i => i.id = d.id ∧ i.icon = d.icon ∧
        (i.config = none → d.config = none)) defaultIntegrations s) :
    loadIntegrations (some (.wellFormed (dataToSave s))) = s := by
  have hnodup : (defaultIntegrations.map Integration.id).Nodup := by decide
  show defaultIntegrations.map (loadOne (dataToSave s)) = s
  exact load_aligned defaultIntegrations s h hnodup

/-- Witness for C5's amended statement: the default catalog itself
round-trips. -/
theorem persist_load_round_trip_witness :
    loadIntegrations (some (.wellFormed (dataToSave defaultIntegrations)))
      = defaultIntegrations := by
  apply persist_load_round_trip
  decide

end FeedbackApp
